import Mathlib

/-!
# TrenchBroom: Brush face management, picking and the drag tool

A shallow embedding of `Source/Model/Brush.cpp` and
`Core/Source/Controller/DragTool.cpp`.

Pointers are natural numbers, `NULL` is `none`.  An address stands for the
identity of the object allocated there and is not used again for a later
object; coordinates and distances are rational numbers, and the not-a-number
value of a distance is `none`.  The heap
of `Face` objects and the `Entity` objects a brush refers to are collected in
`World`; every member function becomes a function on the brush and the world.
Where the C++ has no defined behaviour (the end iterator of `m_faces` is
dereferenced, a deleted face is read, a null drag plane is dereferenced) the
function returns `none`.
The geometry kernel (`BrushGeometry`), whose source is elsewhere, is a
parameter `Kernel G` over an arbitrary state type `G`.
-/

namespace TrenchBroom

namespace Model

/-- Address of a `Face` object. -/
abbrev FacePtr := Nat

/-- Address of an `Entity` object. -/
abbrev EntityPtr := Nat

/-- Address of a `Brush` object (the value of `this`). -/
abbrev BrushPtr := Nat

/-- Modelled from the spec: the `EditState::Type` enumeration, a per-object
selection/visibility state.  `Brush.cpp` names `Default` and `Selected`. -/
inductive EditState where
  | Default
  | Selected
  | Hidden
  | Locked
  deriving DecidableEq, Repr

/-- The `BrushGeometry::CutResult` values.  `Brush.cpp` tests for `Redundant`
and `Null`; every other value takes the default path, called `Added`. -/
inductive CutResult where
  | Added
  | Redundant
  | Null
  deriving DecidableEq, Repr

/-- What a call of the kernel's `addFace(face, droppedFaces)` does: it returns
a `CutResult` having filled `droppedFaces`, or throws `GeometryException`.
Either way the geometry object may have changed. -/
inductive KernelOutcome (G : Type) where
  | returned (result : CutResult) (geometry : G) (droppedFaces : List FacePtr)
  | threw (geometry : G)

/-- The geometry kernel as used by `Brush.cpp`: `new BrushGeometry(worldBounds)`,
`addFace(face, droppedFaces)` and `addFaces(faces, droppedFaces)`.  A face is
passed by reference, so the kernel sees its address and its contents. -/
structure Kernel (G : Type) where
  create : G
  addFace : G → FacePtr → Nat → KernelOutcome G
  addFaces : G → List (FacePtr × Nat) → G × List FacePtr

/-- One call into the kernel, as recorded in the history of a geometry object.
`result = none` stands for a thrown `GeometryException`. -/
inductive KernelCall where
  | addFace (face : FacePtr) (result : Option CutResult) (droppedFaces : List FacePtr)
  | addFaces (faces : List FacePtr) (droppedFaces : List FacePtr)
  deriving DecidableEq, Repr

/-- The faces a kernel call handed to the geometry. -/
def KernelCall.offered : KernelCall → List FacePtr
  | .addFace face _ _ => [face]
  | .addFaces faces _ => faces

/-- The object `m_geometry` points to: the kernel state together with the
history of the calls made on this object since it was constructed. -/
structure BrushGeometry (G : Type) where
  state : G
  calls : List KernelCall

/-- The geometry object right after `new BrushGeometry(m_worldBounds)`. -/
def BrushGeometry.fresh {G : Type} (K : Kernel G) : BrushGeometry G :=
  { state := K.create, calls := [] }

/-- A geometry object has had a face added when some call on it offered it. -/
def BrushGeometry.hasOffered {G : Type} (g : BrushGeometry G) (f : FacePtr) : Prop :=
  ∃ c ∈ g.calls, f ∈ c.offered

/-- The objects outside the brush: the heap of faces (contents, `m_brush`
back-reference, liveness, allocation counter) and, per entity, the
selected-brush counter and the number of `invalidateGeometry` calls received. -/
structure World where
  faceData : FacePtr → Nat
  faceBrush : FacePtr → Option BrushPtr
  faceLive : FacePtr → Bool
  nextFace : FacePtr
  selectedBrushCount : EntityPtr → Int
  invalidations : EntityPtr → Nat

/-- Effect of `delete face`. -/
def World.deleteFace (w : World) (f : FacePtr) : World :=
  { w with faceLive := fun p => if p = f then false else w.faceLive p }

/-- Effect of `face->setBrush(brush)`. -/
def World.setBrush (w : World) (f : FacePtr) (b : BrushPtr) : World :=
  { w with faceBrush := fun p => if p = f then some b else w.faceBrush p }

/-- Effect of `entity->invalidateGeometry()` as seen from the brush. -/
def World.invalidateGeometry (w : World) (e : EntityPtr) : World :=
  { w with invalidations := fun x => if x = e then w.invalidations x + 1 else w.invalidations x }

/-- Modelled from the spec: `Entity::incSelectedBrushCount` increments the
entity's selected-brush counter. -/
def World.incSelectedBrushCount (w : World) (e : EntityPtr) : World :=
  { w with selectedBrushCount :=
      fun x => if x = e then w.selectedBrushCount x + 1 else w.selectedBrushCount x }

/-- Modelled from the spec: `Entity::decSelectedBrushCount` decrements the
entity's selected-brush counter. -/
def World.decSelectedBrushCount (w : World) (e : EntityPtr) : World :=
  { w with selectedBrushCount :=
      fun x => if x = e then w.selectedBrushCount x - 1 else w.selectedBrushCount x }

/-- The statement `if (m_entity != NULL) m_entity->invalidateGeometry();`. -/
def World.notifyEntity (w : World) : Option EntityPtr → World
  | none => w
  | some e => w.invalidateGeometry e

/-- The fields of a `Brush` object; `self` is its own address. -/
structure Brush (G : Type) where
  self : BrushPtr
  uniqueId : Nat
  entity : Option EntityPtr
  editState : EditState
  faces : List FacePtr
  geometry : BrushGeometry G

/-- Modelled from the spec: `MapObject::selected()` tells whether the edit
state is `Selected`. -/
def Brush.selected {G : Type} (b : Brush G) : Bool :=
  decide (b.editState = EditState.Selected)

/-- The loop of `addFace` and `validateGeometry` over `droppedFaces`: each
dropped face is looked up with `find`, deleted and erased from `m_faces`.
The result is `none` when a `find` fails: the loop does not compare the
iterator with `end()`, so it dereferences and erases the end iterator. -/
def dropFaces : List FacePtr → List FacePtr → World → Option (List FacePtr × World)
  | [], faces, w => some (faces, w)
  | d :: ds, faces, w =>
      if d ∈ faces then dropFaces ds (faces.erase d) (w.deleteFace d) else none

/-- The result of `Brush::addFace`: return value, brush and world afterwards. -/
structure AddFaceResult (G : Type) where
  ret : Bool
  brush : Brush G
  world : World

/-- `Brush::addFace(Face* face)`; `none` when the loop over the dropped faces
has no defined result (see `dropFaces`). -/
def Brush.addFace {G : Type} (K : Kernel G) (b : Brush G) (w : World) (face : FacePtr) :
    Option (AddFaceResult G) :=
  match K.addFace b.geometry.state face (w.faceData face) with
  | .returned .Redundant g dropped =>
      some
        { ret := true
          brush := { b with geometry :=
            { state := g
              calls := b.geometry.calls ++ [.addFace face (some .Redundant) dropped] } }
          world := w.deleteFace face }
  | .returned .Null g dropped =>
      some
        { ret := false
          brush := { b with geometry :=
            { state := g
              calls := b.geometry.calls ++ [.addFace face (some .Null) dropped] } }
          world := w.deleteFace face }
  | .returned .Added g dropped =>
      match dropFaces dropped b.faces w with
      | none => none
      | some r =>
          some
            { ret := true
              brush := { b with
                faces := r.1 ++ [face]
                geometry :=
                  { state := g
                    calls := b.geometry.calls ++ [.addFace face (some .Added) dropped] } }
              world := (r.2.setBrush face b.self).notifyEntity b.entity }
  | .threw g =>
      some
        { ret := false
          brush := { b with geometry :=
            { state := g
              calls := b.geometry.calls ++ [.addFace face none []] } }
          world := w.deleteFace face }

/-- The loop `while (!m_faces.empty()) delete m_faces.back(), m_faces.pop_back();`
run on the faces in the order in which it deletes them. -/
def deleteAll : World → List FacePtr → World
  | w, [] => w
  | w, f :: fs => deleteAll (w.deleteFace f) fs

/-- Modelled from the spec: `MapObject::setEditState` stores the new state and
returns the previous one. -/
def mapObjectSetEditState {G : Type} (b : Brush G) (editState : EditState) :
    EditState × Brush G :=
  (b.editState, { b with editState := editState })

/-- `Brush::setEditState(EditState::Type editState)`: previous state, brush
and world afterwards. -/
def Brush.setEditState {G : Type} (b : Brush G) (w : World) (editState : EditState) :
    EditState × Brush G × World :=
  let r := mapObjectSetEditState b editState
  let previous := r.1
  let b1 := r.2
  match b1.entity with
  | none => (previous, b1, w)
  | some e =>
      if previous ≠ EditState.Selected ∧ editState = EditState.Selected then
        (previous, b1, w.incSelectedBrushCount e)
      else if previous = EditState.Selected ∧ editState ≠ EditState.Selected then
        (previous, b1, w.decSelectedBrushCount e)
      else
        (previous, b1, w)

/-- `Brush::init()`, run by every constructor on the object at address `self`
whose `MapObject` part was constructed with identifier `uniqueId` and state
`Default`. -/
def Brush.init {G : Type} (K : Kernel G) (self : BrushPtr) (uniqueId : Nat) (w : World) :
    Brush G × World :=
  let b0 : Brush G :=
    { self := self, uniqueId := uniqueId, entity := none, editState := EditState.Default,
      faces := [], geometry := BrushGeometry.fresh K }
  let r := b0.setEditState w EditState.Default
  ({ r.2.1 with geometry := BrushGeometry.fresh K }, r.2.2)

/-- `Brush::setEntity(Entity* entity)`. -/
def Brush.setEntity {G : Type} (b : Brush G) (w : World) (entity : Option EntityPtr) :
    Brush G × World :=
  if entity = b.entity then (b, w)
  else
    let w1 :=
      match b.entity with
      | some old => if b.selected then w.decSelectedBrushCount old else w
      | none => w
    let b1 := { b with entity := entity }
    let w2 :=
      match b1.entity with
      | some e => if b1.selected then w1.incSelectedBrushCount e else w1
      | none => w1
    (b1, w2)

/-- `Brush::validateGeometry()`; `none` when the loop over the dropped faces
has no defined result (see `dropFaces`). -/
def Brush.validateGeometry {G : Type} (K : Kernel G) (b : Brush G) (w : World) :
    Option (Brush G × World) :=
  let r := K.addFaces K.create (b.faces.map fun f => (f, w.faceData f))
  match dropFaces r.2 b.faces w with
  | none => none
  | some d =>
      some ({ b with
              faces := d.1
              geometry := { state := r.1, calls := [.addFaces b.faces r.2] } }, d.2)

/-- The loop of `replaceFaces`: `m_faces.push_back(newFaces[i]);
newFaces[i]->setBrush(this);`. -/
def replaceLoop {G : Type} : List FacePtr → Brush G → World → Brush G × World
  | [], b, w => (b, w)
  | f :: fs, b, w => replaceLoop fs { b with faces := b.faces ++ [f] } (w.setBrush f b.self)

/-- `Brush::replaceFaces(const FaceList& newFaces)`. -/
def Brush.replaceFaces {G : Type} (K : Kernel G) (b : Brush G) (w : World)
    (newFaces : List FacePtr) : Brush G × World :=
  let w1 := deleteAll w b.faces.reverse
  let b1 := { b with faces := [], geometry := BrushGeometry.fresh K }
  let r := replaceLoop newFaces b1 w1
  (r.1, r.2.notifyEntity r.1.entity)

/-- A `Side` of the geometry as `pick` uses it: its `face` and the member
function `intersectWithRay`, whose result `none` is the not-a-number value. -/
structure Side (R : Type) where
  face : FacePtr
  intersectWithRay : R → Option ℚ

/-- A `Hit` of kind `FaceHit`. -/
structure Hit (V : Type) where
  face : FacePtr
  hitPoint : V
  distance : ℚ

/-- The loop of `pick`,
`for (i = 0; i < sides.size() && Math::isnan(dist); i++)`, on the sides not
yet visited, with the current values of `dist` and `side`. -/
def pickLoop {R : Type} (ray : R) : List (Side R) → Option ℚ → Option (Side R) →
    Option ℚ × Option (Side R)
  | [], dist, side => (dist, side)
  | s :: rest, dist, side =>
      if dist.isNone then pickLoop ray rest (s.intersectWithRay ray) (some s)
      else (dist, side)

/-- `Brush::pick(const Ray& ray, PickResult& pickResults)`.  `boundsIntersect`
is `bounds().intersectWithRay(ray, NULL)`, `sides` is `m_geometry->sides` and
`pointAtDistance` is `Ray::pointAtDistance`; `pickResults` is the list of hits
added so far. -/
def Brush.pick {R V : Type} (boundsIntersect : R → Option ℚ) (sides : List (Side R))
    (pointAtDistance : R → ℚ → V) (ray : R) (pickResults : List (Hit V)) : List (Hit V) :=
  match boundsIntersect ray with
  | none => pickResults
  | some _ =>
      match pickLoop ray sides none none with
      | (some dist, some side) =>
          pickResults ++ [{ face := side.face, hitPoint := pointAtDistance ray dist,
                            distance := dist }]
      | _ => pickResults

/-- A `Vec3f`, with rational coordinates. -/
structure Vec3f where
  x : ℚ
  y : ℚ
  z : ℚ
  deriving DecidableEq

/-- A `BBox`. -/
structure BBox where
  min : Vec3f
  max : Vec3f
  deriving DecidableEq

/-- Difference of two vectors. -/
def Vec3f.sub (a b : Vec3f) : Vec3f := ⟨a.x - b.x, a.y - b.y, a.z - b.z⟩

/-- Cross product of two vectors. -/
def Vec3f.cross (a b : Vec3f) : Vec3f :=
  ⟨a.y * b.z - a.z * b.y, a.z * b.x - a.x * b.z, a.x * b.y - a.y * b.x⟩

/-- Multiple of a vector. -/
def Vec3f.scale (k : ℚ) (a : Vec3f) : Vec3f := ⟨k * a.x, k * a.y, k * a.z⟩

/-- The three points a `Face` is constructed from. -/
structure FacePoints where
  p1 : Vec3f
  p2 : Vec3f
  p3 : Vec3f
  deriving DecidableEq

/-- The point triples of the faces `front`, `left`, `bottom`, `back`, `right`,
`top` that `Brush::Brush(worldBounds, brushBounds, texture)` constructs and
adds, in this order. -/
def boxFacePoints (brushBounds : BBox) : List FacePoints :=
  let p1 := brushBounds.min
  let p2 := p1
  let p2 := { p2 with z := brushBounds.max.z }
  let p3 := p1
  let p3 := { p3 with x := brushBounds.max.x }
  let front : FacePoints := ⟨p1, p2, p3⟩
  let p2 := p1
  let p2 := { p2 with y := brushBounds.max.y }
  let p3 := p1
  let p3 := { p3 with z := brushBounds.max.z }
  let left : FacePoints := ⟨p1, p2, p3⟩
  let p2 := p1
  let p2 := { p2 with x := brushBounds.max.x }
  let p3 := p1
  let p3 := { p3 with y := brushBounds.max.y }
  let bottom : FacePoints := ⟨p1, p2, p3⟩
  let p1 := brushBounds.max
  let p2 := p1
  let p2 := { p2 with x := brushBounds.min.x }
  let p3 := p1
  let p3 := { p3 with z := brushBounds.min.z }
  let back : FacePoints := ⟨p1, p2, p3⟩
  let p2 := p1
  let p2 := { p2 with z := brushBounds.min.z }
  let p3 := p1
  let p3 := { p3 with y := brushBounds.min.y }
  let right : FacePoints := ⟨p1, p2, p3⟩
  let p2 := p1
  let p2 := { p2 with y := brushBounds.min.y }
  let p3 := p1
  let p3 := { p3 with x := brushBounds.min.x }
  let top : FacePoints := ⟨p1, p2, p3⟩
  [front, left, bottom, back, right, top]


/-- The `CutResult` a kernel call returned; `none` is a thrown
`GeometryException`. -/
def KernelOutcome.result? {G : Type} : KernelOutcome G → Option CutResult
  | .returned r _ _ => some r
  | .threw _ => none

/-- The `droppedFaces` a kernel call filled in. -/
def KernelOutcome.dropped {G : Type} : KernelOutcome G → List FacePtr
  | .returned _ _ d => d
  | .threw _ => []

/-- The outcome of the kernel call that `addFace` makes for `face`. -/
def Brush.kernelOutcome {G : Type} (K : Kernel G) (b : Brush G) (w : World) (face : FacePtr) :
    KernelOutcome G :=
  K.addFace b.geometry.state face (w.faceData face)

/-- A call of one of the two selection-relevant member functions. -/
inductive BrushCall where
  | setEntity (entity : Option EntityPtr)
  | setEditState (editState : EditState)
  deriving DecidableEq, Repr

/-- Runs one call on a brush. -/
def Brush.step {G : Type} (b : Brush G) (w : World) : BrushCall → Brush G × World
  | .setEntity e => b.setEntity w e
  | .setEditState s => (b.setEditState w s).2

/-- Runs a sequence of calls on a brush, first call first. -/
def Brush.run {G : Type} : Brush G → World → List BrushCall → Brush G × World
  | b, w, [] => (b, w)
  | b, w, c :: cs => Brush.run (b.step w c).1 (b.step w c).2 cs

/-- The counter value that balances with the brush: one for the entity of a
selected brush, zero for every other entity. -/
def Brush.expectedCount {G : Type} (b : Brush G) (e : EntityPtr) : Int :=
  if b.entity = some e ∧ b.editState = EditState.Selected then 1 else 0

/-- The counters of a world balance with a brush. -/
def Balanced {G : Type} (b : Brush G) (w : World) : Prop :=
  ∀ e, w.selectedBrushCount e = b.expectedCount e

/-- The vector `(p3 - p1) x (p2 - p1)` of a point triple. -/
def FacePoints.orientation (f : FacePoints) : Vec3f :=
  (f.p3.sub f.p1).cross (f.p2.sub f.p1)

/-- A point is a corner of a box when each coordinate is the minimum or the
maximum of the box in that coordinate. -/
def BBox.isCorner (b : BBox) (p : Vec3f) : Prop :=
  (p.x = b.min.x ∨ p.x = b.max.x) ∧ (p.y = b.min.y ∨ p.y = b.max.y) ∧
    (p.z = b.min.z ∨ p.z = b.max.z)

/-- A point triple of box corners that all have the value `c` in the
coordinate `coord`, are not collinear, and whose orientation vector is a
positive multiple of `dir`. -/
def BBox.isOrientedSide (b : BBox) (f : FacePoints) (coord : Vec3f → ℚ) (c : ℚ)
    (dir : Vec3f) : Prop :=
  (b.isCorner f.p1 ∧ b.isCorner f.p2 ∧ b.isCorner f.p3) ∧
  (coord f.p1 = c ∧ coord f.p2 = c ∧ coord f.p3 = c) ∧
  f.orientation ≠ ⟨0, 0, 0⟩ ∧
  ∃ k : ℚ, 0 < k ∧ f.orientation = Vec3f.scale k dir

/-- A kernel for examples.  Its state is the list of faces it holds; the
contents of the offered face select the outcome: `1` is redundant, `2` is
null, `3` throws, `4` is added and drops every face held so far, `6` is added
and reports the first face held twice as dropped, `7` is added and reports
the face `99` as dropped, everything else is added and drops nothing. -/
def exampleKernel : Kernel (List FacePtr) where
  create := []
  addFace := fun g p d =>
    if d = 1 then .returned .Redundant g []
    else if d = 2 then .returned .Null g []
    else if d = 3 then .threw g
    else if d = 4 then .returned .Added [p] g
    else if d = 6 then .returned .Added (g ++ [p]) (g.take 1 ++ g.take 1)
    else if d = 7 then .returned .Added (g ++ [p]) [99]
    else .returned .Added (g ++ [p]) []
  addFaces := fun g fs => (g ++ fs.map Prod.fst, [])

/-- A world for examples: the face at address `p` has contents `p % 10`, no
face belongs to a brush, all counters are zero, addresses from `100` on are
free. -/
def exampleWorld : World where
  faceData := fun p => p % 10
  faceBrush := fun _ => none
  faceLive := fun p => decide (p < 100)
  nextFace := 100
  selectedBrushCount := fun _ => 0
  invalidations := fun _ => 0

/-- A brush for examples at address `1` with entity `7`, holding the faces
`10` and `20`, which its geometry was given. -/
def exampleBrush : Brush (List FacePtr) where
  self := 1
  uniqueId := 5
  entity := some 7
  editState := EditState.Default
  faces := [10, 20]
  geometry := { state := [10, 20],
                calls := [.addFace 10 (some .Added) [], .addFace 20 (some .Added) []] }

/-- Two sides for examples, over rays without content: the first belongs to
face `1` and is hit at distance `5`, the second to face `2` and is hit at
distance `3`. -/
def exampleSides : List (Side Unit) :=
  [{ face := 1, intersectWithRay := fun _ => some 5 },
   { face := 2, intersectWithRay := fun _ => some 3 }]

/-- The box with bounds `(0,0,0)-(64,64,64)`. -/
def cube64 : BBox := { min := ⟨0, 0, 0⟩, max := ⟨64, 64, 64⟩ }

end Model

namespace Controller

/-- A `Ray` with origin and direction of vector type `V`. -/
structure Ray (V : Type) where
  origin : V
  direction : V

/-- A `ToolEvent` as far as `DragTool.cpp` reads it. -/
structure ToolEvent (V : Type) where
  ray : Ray V
  modifierKeys : Nat

/-- What `DragTool.cpp` uses and does not define: the constant `TB_MK_ALT`,
the vector `Null3f`, the two `DragPlane` constructors, `DragPlane::intersect`
(whose result `none` is the not-a-number value), `Ray::pointAtDistance` and
the difference of two vectors. -/
structure DragOps (V P : Type) where
  tbMkAlt : Nat
  null3f : V
  planeOfDirection : V → P
  planeDefault : P
  intersect : P → Ray V → V → Option ℚ
  pointAtDistance : Ray V → ℚ → V
  sub : V → V → V

/-- The virtual member functions a subclass with state `S` overrides.  The
begin hook receives `lastPoint` by reference, the drag hook `delta` and
`lastPoint`; each returns its result, the new `lastPoint` and the new
subclass state. -/
structure Hooks (V S : Type) where
  doBeginLeftDrag : S → ToolEvent V → V → Bool × V × S
  doLeftDrag : S → ToolEvent V → V → V → Bool × V × S
  doEndLeftDrag : S → ToolEvent V → S

/-- A call of a hook, as recorded in the history of a tool. -/
inductive HookCall (V : Type) where
  | doBeginLeftDrag (event : ToolEvent V) (lastPoint : V)
  | doLeftDrag (event : ToolEvent V) (delta : V) (lastPoint : V)
  | doEndLeftDrag (event : ToolEvent V)

/-- The fields of a `DragTool` object, the state of its subclass and the
history of the hook calls made so far. -/
structure DragTool (V P S : Type) where
  dragPlane : Option P
  dragPlanePosition : V
  lastPoint : V
  drag : Bool
  subclass : S
  hookCalls : List (HookCall V)

/-- `DragTool::altPlaneModifierPressed(ToolEvent& event)`. -/
def altPlaneModifierPressed {V P : Type} (ops : DragOps V P) (event : ToolEvent V) : Bool :=
  event.modifierKeys == ops.tbMkAlt

/-- `DragTool::DragTool(Editor& editor)` for a subclass starting in state `s`. -/
def DragTool.new {V P S : Type} (ops : DragOps V P) (s : S) : DragTool V P S :=
  { dragPlane := none, dragPlanePosition := ops.null3f, lastPoint := ops.null3f,
    drag := false, subclass := s, hookCalls := [] }

/-- `DragTool::updateDragPlane(ToolEvent& event)`. -/
def DragTool.updateDragPlane {V P S : Type} (ops : DragOps V P) (t : DragTool V P S)
    (event : ToolEvent V) : DragTool V P S :=
  let t1 := match t.dragPlane with
    | some _ => { t with dragPlane := none }
    | none => t
  if altPlaneModifierPressed ops event then
    { t1 with dragPlane := some (ops.planeOfDirection event.ray.direction) }
  else
    { t1 with dragPlane := some ops.planeDefault }

/-- `DragTool::beginLeftDrag(ToolEvent& event)`: return value and tool. -/
def DragTool.beginLeftDrag {V P S : Type} (ops : DragOps V P) (h : Hooks V S)
    (t : DragTool V P S) (event : ToolEvent V) : Bool × DragTool V P S :=
  let t1 := t.updateDragPlane ops event
  let r := h.doBeginLeftDrag t1.subclass event t1.lastPoint
  let t2 := { t1 with
    drag := r.1
    lastPoint := r.2.1
    subclass := r.2.2
    hookCalls := t1.hookCalls ++ [HookCall.doBeginLeftDrag event t1.lastPoint] }
  let t3 := { t2 with dragPlanePosition := t2.lastPoint }
  (t3.drag, t3)

/-- `DragTool::endLeftDrag(ToolEvent& event)`. -/
def DragTool.endLeftDrag {V P S : Type} (h : Hooks V S) (t : DragTool V P S)
    (event : ToolEvent V) : DragTool V P S :=
  if !t.drag then t
  else
    let t1 := { t with
      subclass := h.doEndLeftDrag t.subclass event
      hookCalls := t.hookCalls ++ [HookCall.doEndLeftDrag event] }
    let t2 := match t1.dragPlane with
      | some _ => { t1 with dragPlane := none }
      | none => t1
    { t2 with drag := false }

/-- `DragTool::leftDrag(ToolEvent& event)`; `none` is the dereference of a
null `m_dragPlane`. -/
def DragTool.leftDrag {V P S : Type} (ops : DragOps V P) (h : Hooks V S)
    (t : DragTool V P S) (event : ToolEvent V) : Option (DragTool V P S) :=
  if !t.drag then some t
  else
    match t.dragPlane with
    | none => none
    | some plane =>
        match ops.intersect plane event.ray t.dragPlanePosition with
        | none => some t
        | some dist =>
            let point := ops.pointAtDistance event.ray dist
            let delta := ops.sub point t.lastPoint
            let r := h.doLeftDrag t.subclass event delta t.lastPoint
            let t1 := { t with
              lastPoint := r.2.1
              subclass := r.2.2
              hookCalls := t.hookCalls ++ [HookCall.doLeftDrag event delta t.lastPoint] }
            if !r.1 then some (t1.endLeftDrag h event) else some t1

/-- A call a client can make on the tool. -/
inductive Call (V : Type) where
  | beginLeftDrag (event : ToolEvent V)
  | leftDrag (event : ToolEvent V)
  | endLeftDrag (event : ToolEvent V)

/-- Runs one client call; `none` is the dereference of a null plane. -/
def DragTool.step {V P S : Type} (ops : DragOps V P) (h : Hooks V S) (t : DragTool V P S) :
    Call V → Option (DragTool V P S)
  | .beginLeftDrag e => some (t.beginLeftDrag ops h e).2
  | .leftDrag e => t.leftDrag ops h e
  | .endLeftDrag e => some (t.endLeftDrag h e)

/-- Runs a sequence of client calls from a given tool state. -/
def DragTool.run {V P S : Type} (ops : DragOps V P) (h : Hooks V S) :
    DragTool V P S → List (Call V) → Option (DragTool V P S)
  | t, [] => some t
  | t, c :: cs =>
      match t.step ops h c with
      | none => none
      | some t1 => DragTool.run ops h t1 cs

/-- The safety invariant of the tool: while dragging, the drag plane exists. -/
def DragTool.PlaneWhileDragging {V P S : Type} (t : DragTool V P S) : Prop :=
  t.drag = true → t.dragPlane ≠ none

end Controller

namespace Model

/-! ## Adding a face -/

theorem addFace_rejected {G : Type} (K : Kernel G) (b : Brush G) (w : World)
    (face : FacePtr)
    (h : (b.kernelOutcome K w face).result? ≠ some CutResult.Added) :
    ∃ r, b.addFace K w face = some r ∧
      r.brush.faces = b.faces ∧ r.world.invalidations = w.invalidations ∧
      r.ret = decide ((b.kernelOutcome K w face).result? = some CutResult.Redundant) := by
  unfold Brush.kernelOutcome at h ⊢
  unfold Brush.addFace
  cases hk : K.addFace b.geometry.state face (w.faceData face) with
  | returned r g d =>
      cases r with
      | Added => rw [hk] at h; simp [KernelOutcome.result?] at h
      | Redundant => exact ⟨_, rfl, rfl, rfl, by simp [KernelOutcome.result?]⟩
      | Null => exact ⟨_, rfl, rfl, rfl, by simp [KernelOutcome.result?]⟩
  | threw g => exact ⟨_, rfl, rfl, rfl, by simp [KernelOutcome.result?]⟩

/-- C2: when the kernel reports `Redundant` or `Null` or throws, `addFace`
returns and leaves the face list as it was (the offered face is not
appended, and is not in the list unless it was before) and the entity
receives no `invalidateGeometry`; a face offered next and found redundant
leaves the list and its length the same again. -/
theorem addFace_rejected_keeps_faces {G : Type} (K : Kernel G) (b : Brush G) (w : World)
    (face : FacePtr)
    (h : (b.kernelOutcome K w face).result? ≠ some CutResult.Added) :
    ∃ r, b.addFace K w face = some r ∧
      r.brush.faces = b.faces ∧
      r.brush.faces ≠ b.faces ++ [face] ∧
      (face ∉ b.faces → face ∉ r.brush.faces) ∧
      (∀ e, r.world.invalidations e = w.invalidations e) ∧
      (∀ face2 : FacePtr,
        (r.brush.kernelOutcome K r.world face2).result? = some CutResult.Redundant →
        ∃ r2, r.brush.addFace K r.world face2 = some r2 ∧
          r2.brush.faces = r.brush.faces ∧
          r2.brush.faces.length = b.faces.length) := by
  obtain ⟨r, hr, h1, h2, _⟩ := addFace_rejected K b w face h
  refine ⟨r, hr, h1, ?_, ?_, ?_, ?_⟩
  · rw [h1]
    intro hc
    have hl := congrArg List.length hc
    simp at hl
  · intro hn
    rw [h1]
    exact hn
  · intro e
    rw [h2]
  · intro face2 hres
    obtain ⟨r2, hr2, h3, _⟩ := addFace_rejected K r.brush r.world face2 (by rw [hres]; decide)
    exact ⟨r2, hr2, h3, by rw [h3, h1]⟩

/-- C2 at a concrete input: the example kernel finds the face `21` redundant
for the example brush. -/
theorem addFace_rejected_keeps_faces_witness :
    ∃ r, exampleBrush.addFace exampleKernel exampleWorld 21 = some r ∧
      r.brush.faces = [10, 20] ∧ r.world.invalidations 7 = 0 := by
  obtain ⟨r, hr, h1, _, _, h4, _⟩ :=
    addFace_rejected_keeps_faces exampleKernel exampleBrush exampleWorld 21 (by decide)
  exact ⟨r, hr, h1, h4 7⟩

theorem init_eq {G : Type} (K : Kernel G) (self : BrushPtr) (uniqueId : Nat) (w : World) :
    Brush.init K self uniqueId w =
      ({ self := self, uniqueId := uniqueId, entity := none, editState := EditState.Default,
         faces := [], geometry := BrushGeometry.fresh K }, w) := by
  simp [Brush.init, Brush.setEditState, mapObjectSetEditState]

theorem setEntity_balanced {G : Type} (b : Brush G) (w : World) (entity : Option EntityPtr)
    (h : Balanced b w) : Balanced (b.setEntity w entity).1 (b.setEntity w entity).2 := by
  intro e
  have he := h e
  unfold Brush.setEntity
  by_cases hsame : entity = b.entity
  · simp [hsame, he]
  · rw [if_neg hsame]
    cases hold : b.entity with
    | none =>
        cases entity with
        | none => exact absurd hold.symm hsame
        | some n =>
            by_cases hs : b.editState = EditState.Selected
            · by_cases hn : e = n
              · simp_all [Brush.expectedCount, Brush.selected, World.incSelectedBrushCount]
              · have hn2 : ¬ n = e := fun hh => hn hh.symm
                simp_all [Brush.expectedCount, Brush.selected, World.incSelectedBrushCount]
            · simp_all [Brush.expectedCount, Brush.selected]
    | some o =>
        cases entity with
        | none =>
            by_cases hs : b.editState = EditState.Selected
            · by_cases ho : e = o
              · subst ho
                simp_all [Brush.expectedCount, Brush.selected, World.decSelectedBrushCount]
              · have ho2 : ¬ o = e := fun hh => ho hh.symm
                simp_all [Brush.expectedCount, Brush.selected, World.decSelectedBrushCount]
            · simp_all [Brush.expectedCount, Brush.selected]
        | some n =>
            have hno : n ≠ o := fun hh => hsame (by rw [hold, hh])
            by_cases hs : b.editState = EditState.Selected
            · by_cases ho : e = o
              · subst ho
                have hne : ¬ e = n := fun hh => hno hh.symm
                simp_all [Brush.expectedCount, Brush.selected, World.decSelectedBrushCount,
                  World.incSelectedBrushCount]
              · have ho2 : ¬ o = e := fun hh => ho hh.symm
                by_cases hn : e = n
                · subst hn
                  simp_all [Brush.expectedCount, Brush.selected, World.decSelectedBrushCount,
                    World.incSelectedBrushCount]
                · have hn2 : ¬ n = e := fun hh => hn hh.symm
                  simp_all [Brush.expectedCount, Brush.selected, World.decSelectedBrushCount,
                    World.incSelectedBrushCount]
            · simp_all [Brush.expectedCount, Brush.selected]

theorem setEditState_balanced {G : Type} (b : Brush G) (w : World) (s : EditState)
    (h : Balanced b w) :
    Balanced (b.setEditState w s).2.1 (b.setEditState w s).2.2 := by
  intro e
  have he := h e
  unfold Brush.setEditState mapObjectSetEditState
  cases hent : b.entity with
  | none => simp_all [Brush.expectedCount]
  | some o =>
      by_cases ho : e = o
      · by_cases hp : b.editState = EditState.Selected <;>
        by_cases hs : s = EditState.Selected <;>
        simp_all [Brush.expectedCount, World.incSelectedBrushCount, World.decSelectedBrushCount]
      · have ho2 : ¬ o = e := fun hh => ho hh.symm
        by_cases hp : b.editState = EditState.Selected <;>
        by_cases hs : s = EditState.Selected <;>
        simp_all [Brush.expectedCount, World.incSelectedBrushCount, World.decSelectedBrushCount]

theorem run_balanced {G : Type} (calls : List BrushCall) (b : Brush G) (w : World)
    (h : Balanced b w) : Balanced (Brush.run b w calls).1 (Brush.run b w calls).2 := by
  induction calls generalizing b w with
  | nil => simpa [Brush.run] using h
  | cons c cs ih =>
      simp only [Brush.run]
      apply ih
      cases c with
      | setEntity e => exact setEntity_balanced b w e h
      | setEditState s => exact setEditState_balanced b w s h

theorem setEntity_selected_inc {G : Type} (b : Brush G) (w : World) (e : EntityPtr)
    (hs : b.editState = EditState.Selected) (hne : b.entity ≠ some e) :
    (b.setEntity w (some e)).1.entity = some e ∧
    (b.setEntity w (some e)).1.editState = EditState.Selected ∧
    (b.setEntity w (some e)).2.selectedBrushCount e = w.selectedBrushCount e + 1 := by
  have hne2 : ¬ some e = b.entity := fun hh => hne hh.symm
  unfold Brush.setEntity
  rw [if_neg hne2]
  cases hold : b.entity with
  | none => simp [Brush.selected, hs, World.incSelectedBrushCount]
  | some o =>
      have hoe : ¬ e = o := fun hh => hne (by rw [hold, hh])
      simp [Brush.selected, hs, World.incSelectedBrushCount, World.decSelectedBrushCount, hoe]

theorem setEntity_selected_dec {G : Type} (b : Brush G) (w : World) (e : EntityPtr)
    (hs : b.editState = EditState.Selected) (he : b.entity = some e) :
    (b.setEntity w none).2.selectedBrushCount e = w.selectedBrushCount e - 1 := by
  unfold Brush.setEntity
  simp [he, Brush.selected, hs, World.decSelectedBrushCount]

/-- C4: from a freshly initialised brush and entity counters that are all
zero, after every sequence of `setEntity` and `setEditState` calls the
selected-brush counter of an entity is one if it is the entity of the brush
and the brush is selected, and zero otherwise.  For any brush: `setEntity`
of a new entity on a selected brush adds exactly one to that entity's
counter, a following `setEntity(NULL)` subtracts exactly one again, and
`setEntity` with the unchanged entity changes nothing. -/
theorem selected_counters_balanced {G : Type} (K : Kernel G) (self : BrushPtr)
    (uniqueId : Nat) (w0 : World) (h0 : ∀ e, w0.selectedBrushCount e = 0)
    (calls : List BrushCall) :
    (Brush.init K self uniqueId w0).1.entity = none ∧
    (Brush.init K self uniqueId w0).1.editState = EditState.Default ∧
    (∀ e,
      (Brush.run (Brush.init K self uniqueId w0).1 (Brush.init K self uniqueId w0).2
          calls).2.selectedBrushCount e =
        if (Brush.run (Brush.init K self uniqueId w0).1 (Brush.init K self uniqueId w0).2
              calls).1.entity = some e ∧
           (Brush.run (Brush.init K self uniqueId w0).1 (Brush.init K self uniqueId w0).2
              calls).1.editState = EditState.Selected
        then 1 else 0) ∧
    (∀ (b : Brush G) (w : World) (e : EntityPtr),
      b.editState = EditState.Selected → b.entity ≠ some e →
        (b.setEntity w (some e)).2.selectedBrushCount e = w.selectedBrushCount e + 1 ∧
        ((b.setEntity w (some e)).1.setEntity (b.setEntity w (some e)).2
            none).2.selectedBrushCount e =
          (b.setEntity w (some e)).2.selectedBrushCount e - 1) ∧
    (∀ (b : Brush G) (w : World), b.setEntity w b.entity = (b, w)) := by
  refine ⟨by rw [init_eq], by rw [init_eq], ?_, ?_, ?_⟩
  · have hinit : Balanced (Brush.init K self uniqueId w0).1 (Brush.init K self uniqueId w0).2 := by
      intro e
      rw [init_eq]
      simp [Brush.expectedCount, h0]
    intro e
    have h := run_balanced calls _ _ hinit e
    rw [h]
    rfl
  · intro b w e hs hne
    have h1 := setEntity_selected_inc b w e hs hne
    exact ⟨h1.2.2, setEntity_selected_dec _ _ e h1.2.1 h1.1⟩
  · intro b w
    simp [Brush.setEntity]

/-- C4 at a concrete input: select the brush, give it entity `7`, then take
the entity away again. -/
theorem selected_counters_balanced_witness :
    (Brush.run (Brush.init exampleKernel 1 5 exampleWorld).1
        (Brush.init exampleKernel 1 5 exampleWorld).2
        [.setEditState .Selected, .setEntity (some 7)]).2.selectedBrushCount 7 = 1 ∧
    (Brush.run (Brush.init exampleKernel 1 5 exampleWorld).1
        (Brush.init exampleKernel 1 5 exampleWorld).2
        [.setEditState .Selected, .setEntity (some 7), .setEntity none]).2.selectedBrushCount 7
      = 0 :=
  ⟨((selected_counters_balanced exampleKernel 1 5 exampleWorld (fun _ => rfl)
      [.setEditState .Selected, .setEntity (some 7)]).2.2.1 7).trans (by decide),
   ((selected_counters_balanced exampleKernel 1 5 exampleWorld (fun _ => rfl)
      [.setEditState .Selected, .setEntity (some 7), .setEntity none]).2.2.1 7).trans
      (by decide)⟩

/-! ## Replacing the faces -/

theorem replaceLoop_spec {G : Type} (fs : List FacePtr) (b : Brush G) (w : World) :
    (replaceLoop fs b w).1.faces = b.faces ++ fs ∧
    (replaceLoop fs b w).1.geometry = b.geometry ∧
    (replaceLoop fs b w).1.entity = b.entity ∧
    (replaceLoop fs b w).1.self = b.self ∧
    (∀ f ∈ fs, (replaceLoop fs b w).2.faceBrush f = some b.self) ∧
    (∀ f, w.faceBrush f = some b.self → (replaceLoop fs b w).2.faceBrush f = some b.self) := by
  induction fs generalizing b w with
  | nil => simp [replaceLoop]
  | cons f fs ih =>
      have h := ih { b with faces := b.faces ++ [f] } (w.setBrush f b.self)
      simp only [replaceLoop]
      refine ⟨by simp [h.1], h.2.1, h.2.2.1, h.2.2.2.1, ?_, ?_⟩
      · intro x hx
        rcases List.mem_cons.mp hx with hxf | hxs
        · subst hxf
          exact h.2.2.2.2.2 x (by simp [World.setBrush])
        · exact h.2.2.2.2.1 x hxs
      · intro x hx
        apply h.2.2.2.2.2 x
        by_cases hxf : x = f
        · simp [World.setBrush, hxf]
        · simp [World.setBrush, hxf, hx]

theorem replaceFaces_spec {G : Type} (K : Kernel G) (b : Brush G) (w : World)
    (newFaces : List FacePtr) :
    (b.replaceFaces K w newFaces).1.faces = newFaces ∧
    (∀ f ∈ newFaces, (b.replaceFaces K w newFaces).2.faceBrush f = some b.self) ∧
    (b.replaceFaces K w newFaces).1.geometry = BrushGeometry.fresh K := by
  have h := replaceLoop_spec newFaces
    { b with faces := [], geometry := BrushGeometry.fresh K } (deleteAll w b.faces.reverse)
  unfold Brush.replaceFaces
  refine ⟨by simpa using h.1, ?_, h.2.1⟩
  intro f hf
  have hb := h.2.2.2.2.1 f hf
  cases hent : (replaceLoop newFaces
      { b with faces := [], geometry := BrushGeometry.fresh K }
      (deleteAll w b.faces.reverse)).1.entity with
  | none => simpa [World.notifyEntity, hent] using hb
  | some e => simpa [World.notifyEntity, World.invalidateGeometry, hent] using hb

theorem validateGeometry_offers {G : Type} (K : Kernel G) (b : Brush G) (w : World)
    (r : Brush G × World) (hr : b.validateGeometry K w = some r) :
    ∀ f ∈ b.faces, r.1.geometry.hasOffered f := by
  intro f hf
  unfold Brush.validateGeometry at hr
  cases hd : dropFaces (K.addFaces K.create (b.faces.map fun f => (f, w.faceData f))).2
      b.faces w with
  | none => simp [hd] at hr
  | some d =>
      simp only [hd, Option.some.injEq] at hr
      subst hr
      refine ⟨.addFaces b.faces (K.addFaces K.create (b.faces.map fun f => (f, w.faceData f))).2,
        ?_, ?_⟩
      · simp
      · simpa [KernelCall.offered] using hf

/-- C5: `replaceFaces` evaluated on the example brush with the new faces `30`
and `40`.  The face list becomes the new list and both faces refer back to
the brush, but the geometry is the newly constructed object on which no call
has been made: neither face has been added to it. -/
theorem replaceFaces_geometry_not_rebuilt :
    (exampleBrush.replaceFaces exampleKernel exampleWorld [30, 40]).1.faces = [30, 40] ∧
    (exampleBrush.replaceFaces exampleKernel exampleWorld [30, 40]).2.faceBrush 30 = some 1 ∧
    (exampleBrush.replaceFaces exampleKernel exampleWorld [30, 40]).2.faceBrush 40 = some 1 ∧
    (exampleBrush.replaceFaces exampleKernel exampleWorld [30, 40]).1.geometry.calls = [] ∧
    (exampleBrush.replaceFaces exampleKernel exampleWorld [30, 40]).1.geometry.state =
      exampleKernel.create ∧
    ¬ (exampleBrush.replaceFaces exampleKernel exampleWorld [30, 40]).1.geometry.hasOffered 30 ∧
    ¬ (exampleBrush.replaceFaces exampleKernel exampleWorld [30, 40]).1.geometry.hasOffered 40 := by
  have h := replaceFaces_spec exampleKernel exampleBrush exampleWorld [30, 40]
  refine ⟨h.1, h.2.1 30 (by simp), h.2.1 40 (by simp), ?_, ?_, ?_, ?_⟩
  · rw [h.2.2]; rfl
  · rw [h.2.2]; rfl
  · rw [h.2.2]; simp [BrushGeometry.hasOffered, BrushGeometry.fresh]
  · rw [h.2.2]; simp [BrushGeometry.hasOffered, BrushGeometry.fresh]

/-! ## Picking -/

theorem pickLoop_some {R : Type} (ray : R) (sides : List (Side R)) (d : ℚ)
    (side : Option (Side R)) : pickLoop ray sides (some d) side = (some d, side) := by
  cases sides <;> simp [pickLoop]

theorem pickLoop_all_none {R : Type} (ray : R) (sides : List (Side R))
    (side : Option (Side R)) (h : ∀ s ∈ sides, s.intersectWithRay ray = none) :
    (pickLoop ray sides none side).1 = none := by
  induction sides generalizing side with
  | nil => simp [pickLoop]
  | cons s rest ih =>
      have hs : s.intersectWithRay ray = none := h s (by simp)
      simp only [pickLoop, Option.isNone_none, if_true, hs]
      exact ih (some s) (fun x hx => h x (by simp [hx]))

theorem pickLoop_first {R : Type} (ray : R) (pre : List (Side R)) (s : Side R)
    (post : List (Side R)) (d : ℚ) (side : Option (Side R))
    (hpre : ∀ x ∈ pre, x.intersectWithRay ray = none) (hs : s.intersectWithRay ray = some d) :
    pickLoop ray (pre ++ s :: post) none side = (some d, some s) := by
  induction pre generalizing side with
  | nil => simp [pickLoop, hs, pickLoop_some]
  | cons p pre ih =>
      have hp : p.intersectWithRay ray = none := hpre p (by simp)
      simp only [List.cons_append, pickLoop, Option.isNone_none, if_true, hp]
      exact ih (some p) (fun x hx => hpre x (by simp [hx]))

theorem exists_first_hit {R : Type} (ray : R) (sides : List (Side R))
    (h : ∃ s ∈ sides, s.intersectWithRay ray ≠ none) :
    ∃ pre s post d, sides = pre ++ s :: post ∧
      (∀ x ∈ pre, x.intersectWithRay ray = none) ∧ s.intersectWithRay ray = some d := by
  induction sides with
  | nil => simp at h
  | cons a rest ih =>
      cases ha : a.intersectWithRay ray with
      | some d => exact ⟨[], a, rest, d, by simp, by simp, ha⟩
      | none =>
          obtain ⟨x, hx, hxn⟩ := h
          have hrest : ∃ s ∈ rest, s.intersectWithRay ray ≠ none := by
            rcases List.mem_cons.mp hx with hxa | hxr
            · subst hxa; exact absurd ha hxn
            · exact ⟨x, hxr, hxn⟩
          obtain ⟨pre, s, post, d, h1, h2, h3⟩ := ih hrest
          refine ⟨a :: pre, s, post, d, by simp [h1], ?_, h3⟩
          intro y hy
          rcases List.mem_cons.mp hy with hya | hyp
          · subst hya; exact ha
          · exact h2 y hyp

/-- C6, as stated, fails: with a bounding box that is hit and the two example
sides, `pick` adds the hit of face `1` at distance `5`, although the side of
face `2` is hit at the smaller distance `3`. -/
theorem pick_not_smallest :
    ∃ hit : Hit ℚ,
      Brush.pick (fun _ => some 0) exampleSides (fun _ d => d) () [] = [hit] ∧
      hit.face = 1 ∧ hit.distance = 5 ∧
      ∃ s ∈ exampleSides, s.face = 2 ∧ s.intersectWithRay () = some 3 ∧
        (3 : ℚ) < hit.distance := by
  refine ⟨{ face := 1, hitPoint := 5, distance := 5 }, ?_, rfl, rfl,
    { face := 2, intersectWithRay := fun _ => some 3 }, ?_, rfl, rfl, ?_⟩
  · simp [Brush.pick, pickLoop, exampleSides]
  · simp [exampleSides]
  · norm_num

/-- C6, amended: `pick` adds at most one hit; it adds none when the
bounding-box test yields not-a-number or when every side's intersection is
not-a-number; otherwise it adds exactly one hit, that of the first side, in
the order of the geometry's sides, whose intersection with the ray is a
number: its distance is that intersection distance, its face is that side's
face and its point is `ray.pointAtDistance(distance)`. -/
theorem pick_first_hit {R V : Type} (boundsIntersect : R → Option ℚ) (sides : List (Side R))
    (pointAtDistance : R → ℚ → V) (ray : R) (pickResults : List (Hit V)) :
    (Brush.pick boundsIntersect sides pointAtDistance ray pickResults = pickResults ∨
      ∃ hit, Brush.pick boundsIntersect sides pointAtDistance ray pickResults =
        pickResults ++ [hit]) ∧
    (boundsIntersect ray = none →
      Brush.pick boundsIntersect sides pointAtDistance ray pickResults = pickResults) ∧
    ((∀ s ∈ sides, s.intersectWithRay ray = none) →
      Brush.pick boundsIntersect sides pointAtDistance ray pickResults = pickResults) ∧
    (boundsIntersect ray ≠ none → (∃ s ∈ sides, s.intersectWithRay ray ≠ none) →
      ∃ pre s post d, sides = pre ++ s :: post ∧
        (∀ x ∈ pre, x.intersectWithRay ray = none) ∧ s.intersectWithRay ray = some d ∧
        Brush.pick boundsIntersect sides pointAtDistance ray pickResults =
          pickResults ++ [{ face := s.face, hitPoint := pointAtDistance ray d,
                            distance := d }]) := by
  have hnone : boundsIntersect ray = none →
      Brush.pick boundsIntersect sides pointAtDistance ray pickResults = pickResults := by
    intro hb
    simp [Brush.pick, hb]
  have hall : (∀ s ∈ sides, s.intersectWithRay ray = none) →
      Brush.pick boundsIntersect sides pointAtDistance ray pickResults = pickResults := by
    intro hs
    have hl := pickLoop_all_none ray sides none hs
    unfold Brush.pick
    cases hb : boundsIntersect ray with
    | none => rfl
    | some b0 =>
        cases hp : pickLoop ray sides none none with
        | mk dist side =>
            rw [hp] at hl
            simp only at hl
            subst hl
            rfl
  have hfirst : boundsIntersect ray ≠ none → (∃ s ∈ sides, s.intersectWithRay ray ≠ none) →
      ∃ pre s post d, sides = pre ++ s :: post ∧
        (∀ x ∈ pre, x.intersectWithRay ray = none) ∧ s.intersectWithRay ray = some d ∧
        Brush.pick boundsIntersect sides pointAtDistance ray pickResults =
          pickResults ++ [{ face := s.face, hitPoint := pointAtDistance ray d,
                            distance := d }] := by
    intro hb hex
    obtain ⟨pre, s, post, d, h1, h2, h3⟩ := exists_first_hit ray sides hex
    refine ⟨pre, s, post, d, h1, h2, h3, ?_⟩
    have hl := pickLoop_first ray pre s post d none h2 h3
    unfold Brush.pick
    cases hbb : boundsIntersect ray with
    | none => exact absurd hbb hb
    | some b0 =>
        rw [h1, hl]
  refine ⟨?_, hnone, hall, hfirst⟩
  by_cases hb : boundsIntersect ray = none
  · exact Or.inl (hnone hb)
  · by_cases hex : ∃ s ∈ sides, s.intersectWithRay ray ≠ none
    · obtain ⟨pre, s, post, d, _, _, _, h4⟩ := hfirst hb hex
      exact Or.inr ⟨_, h4⟩
    · refine Or.inl (hall ?_)
      intro s hs
      by_contra hn
      exact hex ⟨s, hs, hn⟩

/-! ## The box constructor -/

theorem orientation_ne_zero_of_scale (f : FacePoints) (k : ℚ) (dir : Vec3f) (hk : 0 < k)
    (hdir : dir ≠ ⟨0, 0, 0⟩) (h : f.orientation = Vec3f.scale k dir) :
    f.orientation ≠ ⟨0, 0, 0⟩ := by
  intro h0
  rw [h] at h0
  apply hdir
  have hk0 : k ≠ 0 := ne_of_gt hk
  cases dir with
  | mk x y z =>
      simp only [Vec3f.scale, Vec3f.mk.injEq, mul_eq_zero, hk0, false_or] at h0
      simp [h0.1, h0.2.1, h0.2.2]

/-- C7: for a box with `min < max` in each coordinate the constructor
synthesises six point triples, in the order front, left, bottom, back, right,
top; each consists of three non-collinear corners of the box that lie in the
plane `y = min.y`, `x = min.x`, `z = min.z`, `y = max.y`, `x = max.x`,
`z = max.z` respectively, and `(p3 - p1) x (p2 - p1)` is a positive multiple
of the outward direction `-y`, `-x`, `-z`, `+y`, `+x`, `+z` of that plane.
For the bounds `(0,0,0)-(64,64,64)` the triples are corners of the six sides
of the cube of side `64`. -/
theorem boxFacePoints_oriented (b : BBox) (hx : b.min.x < b.max.x) (hy : b.min.y < b.max.y)
    (hz : b.min.z < b.max.z) :
    (∃ front left bottom back right top : FacePoints,
      boxFacePoints b = [front, left, bottom, back, right, top] ∧
      b.isOrientedSide front Vec3f.y b.min.y ⟨0, -1, 0⟩ ∧
      b.isOrientedSide left Vec3f.x b.min.x ⟨-1, 0, 0⟩ ∧
      b.isOrientedSide bottom Vec3f.z b.min.z ⟨0, 0, -1⟩ ∧
      b.isOrientedSide back Vec3f.y b.max.y ⟨0, 1, 0⟩ ∧
      b.isOrientedSide right Vec3f.x b.max.x ⟨1, 0, 0⟩ ∧
      b.isOrientedSide top Vec3f.z b.max.z ⟨0, 0, 1⟩) ∧
    boxFacePoints cube64 =
      [⟨⟨0, 0, 0⟩, ⟨0, 0, 64⟩, ⟨64, 0, 0⟩⟩,
       ⟨⟨0, 0, 0⟩, ⟨0, 64, 0⟩, ⟨0, 0, 64⟩⟩,
       ⟨⟨0, 0, 0⟩, ⟨64, 0, 0⟩, ⟨0, 64, 0⟩⟩,
       ⟨⟨64, 64, 64⟩, ⟨0, 64, 64⟩, ⟨64, 64, 0⟩⟩,
       ⟨⟨64, 64, 64⟩, ⟨64, 64, 0⟩, ⟨64, 0, 64⟩⟩,
       ⟨⟨64, 64, 64⟩, ⟨64, 0, 64⟩, ⟨0, 64, 64⟩⟩] ∧
    (boxFacePoints cube64).map FacePoints.orientation =
      [⟨0, -4096, 0⟩, ⟨-4096, 0, 0⟩, ⟨0, 0, -4096⟩, ⟨0, 4096, 0⟩, ⟨4096, 0, 0⟩,
       ⟨0, 0, 4096⟩] := by
  have dx : 0 < b.max.x - b.min.x := sub_pos.mpr hx
  have dy : 0 < b.max.y - b.min.y := sub_pos.mpr hy
  have dz : 0 < b.max.z - b.min.z := sub_pos.mpr hz
  refine ⟨⟨_, _, _, _, _, _, rfl, ?_, ?_, ?_, ?_, ?_, ?_⟩, ?_, ?_⟩
  · have ho : (FacePoints.mk b.min { b.min with z := b.max.z }
        { b.min with x := b.max.x }).orientation =
        Vec3f.scale ((b.max.x - b.min.x) * (b.max.z - b.min.z)) ⟨0, -1, 0⟩ := by
      simp only [FacePoints.orientation, Vec3f.sub, Vec3f.cross, Vec3f.scale, Vec3f.mk.injEq]
      refine ⟨by ring, by ring, by ring⟩
    exact ⟨by simp [BBox.isCorner], by simp,
      orientation_ne_zero_of_scale _ _ _ (mul_pos dx dz) (by simp) ho,
      _, mul_pos dx dz, ho⟩
  · have ho : (FacePoints.mk b.min { b.min with y := b.max.y }
        { b.min with z := b.max.z }).orientation =
        Vec3f.scale ((b.max.z - b.min.z) * (b.max.y - b.min.y)) ⟨-1, 0, 0⟩ := by
      simp only [FacePoints.orientation, Vec3f.sub, Vec3f.cross, Vec3f.scale, Vec3f.mk.injEq]
      refine ⟨by ring, by ring, by ring⟩
    exact ⟨by simp [BBox.isCorner], by simp,
      orientation_ne_zero_of_scale _ _ _ (mul_pos dz dy) (by simp) ho,
      _, mul_pos dz dy, ho⟩
  · have ho : (FacePoints.mk b.min { b.min with x := b.max.x }
        { b.min with y := b.max.y }).orientation =
        Vec3f.scale ((b.max.y - b.min.y) * (b.max.x - b.min.x)) ⟨0, 0, -1⟩ := by
      simp only [FacePoints.orientation, Vec3f.sub, Vec3f.cross, Vec3f.scale, Vec3f.mk.injEq]
      refine ⟨by ring, by ring, by ring⟩
    exact ⟨by simp [BBox.isCorner], by simp,
      orientation_ne_zero_of_scale _ _ _ (mul_pos dy dx) (by simp) ho,
      _, mul_pos dy dx, ho⟩
  · have ho : (FacePoints.mk b.max { b.max with x := b.min.x }
        { b.max with z := b.min.z }).orientation =
        Vec3f.scale ((b.max.z - b.min.z) * (b.max.x - b.min.x)) ⟨0, 1, 0⟩ := by
      simp only [FacePoints.orientation, Vec3f.sub, Vec3f.cross, Vec3f.scale, Vec3f.mk.injEq]
      refine ⟨by ring, by ring, by ring⟩
    exact ⟨by simp [BBox.isCorner], by simp,
      orientation_ne_zero_of_scale _ _ _ (mul_pos dz dx) (by simp) ho,
      _, mul_pos dz dx, ho⟩
  · have ho : (FacePoints.mk b.max { b.max with z := b.min.z }
        { b.max with y := b.min.y }).orientation =
        Vec3f.scale ((b.max.y - b.min.y) * (b.max.z - b.min.z)) ⟨1, 0, 0⟩ := by
      simp only [FacePoints.orientation, Vec3f.sub, Vec3f.cross, Vec3f.scale, Vec3f.mk.injEq]
      refine ⟨by ring, by ring, by ring⟩
    exact ⟨by simp [BBox.isCorner], by simp,
      orientation_ne_zero_of_scale _ _ _ (mul_pos dy dz) (by simp) ho,
      _, mul_pos dy dz, ho⟩
  · have ho : (FacePoints.mk b.max { b.max with y := b.min.y }
        { b.max with x := b.min.x }).orientation =
        Vec3f.scale ((b.max.x - b.min.x) * (b.max.y - b.min.y)) ⟨0, 0, 1⟩ := by
      simp only [FacePoints.orientation, Vec3f.sub, Vec3f.cross, Vec3f.scale, Vec3f.mk.injEq]
      refine ⟨by ring, by ring, by ring⟩
    exact ⟨by simp [BBox.isCorner], by simp,
      orientation_ne_zero_of_scale _ _ _ (mul_pos dx dy) (by simp) ho,
      _, mul_pos dx dy, ho⟩
  · rfl
  · simp [boxFacePoints, cube64, FacePoints.orientation, Vec3f.sub, Vec3f.cross]
    norm_num

/-- C7 at a concrete input: the cube with bounds `(0,0,0)-(64,64,64)`. -/
theorem boxFacePoints_oriented_witness :
    ∃ front left bottom back right top : FacePoints,
      boxFacePoints cube64 = [front, left, bottom, back, right, top] ∧
      cube64.isOrientedSide front Vec3f.y cube64.min.y ⟨0, -1, 0⟩ ∧
      cube64.isOrientedSide left Vec3f.x cube64.min.x ⟨-1, 0, 0⟩ ∧
      cube64.isOrientedSide bottom Vec3f.z cube64.min.z ⟨0, 0, -1⟩ ∧
      cube64.isOrientedSide back Vec3f.y cube64.max.y ⟨0, 1, 0⟩ ∧
      cube64.isOrientedSide right Vec3f.x cube64.max.x ⟨1, 0, 0⟩ ∧
      cube64.isOrientedSide top Vec3f.z cube64.max.z ⟨0, 0, 1⟩ :=
  (boxFacePoints_oriented cube64 (by simp [cube64]) (by simp [cube64]) (by simp [cube64])).1

/-! ## Restoring from a template -/

end Model

namespace Controller

/-! ## The drag tool -/

theorem updateDragPlane_spec {V P S : Type} (ops : DragOps V P) (t : DragTool V P S)
    (event : ToolEvent V) :
    (t.updateDragPlane ops event).dragPlane ≠ none ∧
    (t.updateDragPlane ops event).subclass = t.subclass ∧
    (t.updateDragPlane ops event).lastPoint = t.lastPoint ∧
    (t.updateDragPlane ops event).hookCalls = t.hookCalls := by
  unfold DragTool.updateDragPlane
  cases hp : t.dragPlane <;> cases ha : altPlaneModifierPressed ops event <;> simp

theorem beginLeftDrag_spec {V P S : Type} (ops : DragOps V P) (h : Hooks V S)
    (t : DragTool V P S) (event : ToolEvent V) :
    (t.beginLeftDrag ops h event).2.dragPlane ≠ none ∧
    (t.beginLeftDrag ops h event).2.drag = (h.doBeginLeftDrag t.subclass event t.lastPoint).1 ∧
    (t.beginLeftDrag ops h event).1 = (h.doBeginLeftDrag t.subclass event t.lastPoint).1 := by
  have hu := updateDragPlane_spec ops t event
  unfold DragTool.beginLeftDrag
  simp only [hu.2.1, hu.2.2.1]
  exact ⟨hu.1, trivial, trivial⟩

theorem endLeftDrag_idle {V P S : Type} (h : Hooks V S) (t : DragTool V P S)
    (event : ToolEvent V) : (t.endLeftDrag h event).drag = false := by
  unfold DragTool.endLeftDrag
  cases hd : t.drag with
  | false => simp [hd]
  | true => cases hp : t.dragPlane <;> simp [hp]

theorem endLeftDrag_dragging {V P S : Type} (h : Hooks V S) (t : DragTool V P S)
    (event : ToolEvent V) (hd : t.drag = true) :
    t.endLeftDrag h event =
      { t with
        dragPlane := none
        drag := false
        subclass := h.doEndLeftDrag t.subclass event
        hookCalls := t.hookCalls ++ [HookCall.doEndLeftDrag event] } := by
  unfold DragTool.endLeftDrag
  cases hp : t.dragPlane <;> simp [hd, hp]

/-- C8: `leftDrag` does nothing when the tool is not dragging.  While it is
dragging with drag plane `plane`: if the intersection of the plane with the
event ray is not-a-number the tool is left exactly as it is and no hook is
called; otherwise `doLeftDrag` is called once with
`delta = ray.pointAtDistance(dist) - lastPoint`, and when it returns true the
tool stays dragging with its plane, when it returns false `doEndLeftDrag` is
called next, the plane is released and the tool is idle. -/
theorem leftDrag_spec {V P S : Type} (ops : DragOps V P) (h : Hooks V S)
    (t : DragTool V P S) (event : ToolEvent V) :
    (t.drag = false → t.leftDrag ops h event = some t) ∧
    (∀ plane, t.drag = true → t.dragPlane = some plane →
      (ops.intersect plane event.ray t.dragPlanePosition = none →
        t.leftDrag ops h event = some t) ∧
      (∀ dist, ops.intersect plane event.ray t.dragPlanePosition = some dist →
        ((h.doLeftDrag t.subclass event
            (ops.sub (ops.pointAtDistance event.ray dist) t.lastPoint) t.lastPoint).1 = true →
          t.leftDrag ops h event = some
            { dragPlane := some plane
              dragPlanePosition := t.dragPlanePosition
              lastPoint := (h.doLeftDrag t.subclass event
                (ops.sub (ops.pointAtDistance event.ray dist) t.lastPoint) t.lastPoint).2.1
              drag := true
              subclass := (h.doLeftDrag t.subclass event
                (ops.sub (ops.pointAtDistance event.ray dist) t.lastPoint) t.lastPoint).2.2
              hookCalls := t.hookCalls ++
                [HookCall.doLeftDrag event
                  (ops.sub (ops.pointAtDistance event.ray dist) t.lastPoint) t.lastPoint] }) ∧
        ((h.doLeftDrag t.subclass event
            (ops.sub (ops.pointAtDistance event.ray dist) t.lastPoint) t.lastPoint).1 = false →
          t.leftDrag ops h event = some
            { dragPlane := none
              dragPlanePosition := t.dragPlanePosition
              lastPoint := (h.doLeftDrag t.subclass event
                (ops.sub (ops.pointAtDistance event.ray dist) t.lastPoint) t.lastPoint).2.1
              drag := false
              subclass := h.doEndLeftDrag (h.doLeftDrag t.subclass event
                (ops.sub (ops.pointAtDistance event.ray dist) t.lastPoint) t.lastPoint).2.2 event
              hookCalls := t.hookCalls ++
                [HookCall.doLeftDrag event
                  (ops.sub (ops.pointAtDistance event.ray dist) t.lastPoint) t.lastPoint,
                 HookCall.doEndLeftDrag event] }))) := by
  refine ⟨?_, ?_⟩
  · intro hd
    simp [DragTool.leftDrag, hd]
  · intro plane hd hp
    refine ⟨?_, ?_⟩
    · intro hi
      simp [DragTool.leftDrag, hd, hp, hi]
    · intro dist hi
      refine ⟨?_, ?_⟩
      · intro hr
        simp [DragTool.leftDrag, hd, hp, hi, hr]
      · intro hr
        simp [DragTool.leftDrag, hd, hp, hi, hr, endLeftDrag_dragging]

theorem leftDrag_safe {V P S : Type} (ops : DragOps V P) (h : Hooks V S)
    (t : DragTool V P S) (event : ToolEvent V) (hinv : t.PlaneWhileDragging) :
    ∃ t1, t.leftDrag ops h event = some t1 ∧ t1.PlaneWhileDragging := by
  cases hd : t.drag with
  | false => exact ⟨t, by simp [DragTool.leftDrag, hd], hinv⟩
  | true =>
      cases hp : t.dragPlane with
      | none => exact absurd hp (hinv hd)
      | some plane =>
          cases hi : ops.intersect plane event.ray t.dragPlanePosition with
          | none => exact ⟨t, by simp [DragTool.leftDrag, hd, hp, hi], hinv⟩
          | some dist =>
              cases hr : (h.doLeftDrag t.subclass event
                  (ops.sub (ops.pointAtDistance event.ray dist) t.lastPoint) t.lastPoint).1 with
              | true =>
                  refine ⟨_, by simp [DragTool.leftDrag, hd, hp, hi, hr]; rfl, ?_⟩
                  intro _
                  simp [hp]
              | false =>
                  refine ⟨_, by simp [DragTool.leftDrag, hd, hp, hi, hr]; rfl, ?_⟩
                  intro hc
                  rw [endLeftDrag_idle] at hc
                  exact absurd hc (by simp)

theorem step_safe {V P S : Type} (ops : DragOps V P) (h : Hooks V S)
    (t : DragTool V P S) (c : Call V) (hinv : t.PlaneWhileDragging) :
    ∃ t1, t.step ops h c = some t1 ∧ t1.PlaneWhileDragging := by
  cases c with
  | beginLeftDrag e =>
      exact ⟨_, rfl, fun _ => (beginLeftDrag_spec ops h t e).1⟩
  | leftDrag e => exact leftDrag_safe ops h t e hinv
  | endLeftDrag e =>
      refine ⟨_, rfl, ?_⟩
      intro hc
      rw [endLeftDrag_idle] at hc
      exact absurd hc (by simp)

theorem run_safe {V P S : Type} (ops : DragOps V P) (h : Hooks V S) (calls : List (Call V))
    (t : DragTool V P S) (hinv : t.PlaneWhileDragging) :
    ∃ t1, DragTool.run ops h t calls = some t1 ∧ t1.PlaneWhileDragging := by
  induction calls generalizing t with
  | nil => exact ⟨t, rfl, hinv⟩
  | cons c cs ih =>
      obtain ⟨t1, h1, hinv1⟩ := step_safe ops h t c hinv
      obtain ⟨t2, h2, hinv2⟩ := ih t1 hinv1
      refine ⟨t2, ?_, hinv2⟩
      simp [DragTool.run, h1, h2]

/-- C10: every sequence of `beginLeftDrag`, `leftDrag` and `endLeftDrag` calls
on a newly constructed tool, with any hooks, runs without a null plane being
dereferenced and ends in a state in which the drag plane exists if the tool
is dragging, so that a further `leftDrag` does not hit a null plane either;
`beginLeftDrag` leaves the tool dragging exactly when the begin hook returned
true, and after `endLeftDrag` the tool is idle. -/
theorem dragging_has_plane {V P S : Type} (ops : DragOps V P) (h : Hooks V S) (s : S)
    (calls : List (Call V)) :
    (∃ t, DragTool.run ops h (DragTool.new ops s) calls = some t ∧
      (t.drag = true → t.dragPlane ≠ none) ∧
      ∀ event, t.leftDrag ops h event ≠ none) ∧
    (∀ (t : DragTool V P S) (event : ToolEvent V),
      ((t.beginLeftDrag ops h event).2.drag = true ↔
        (h.doBeginLeftDrag t.subclass event t.lastPoint).1 = true) ∧
      (t.beginLeftDrag ops h event).1 = (t.beginLeftDrag ops h event).2.drag) ∧
    (∀ (t : DragTool V P S) (event : ToolEvent V), (t.endLeftDrag h event).drag = false) := by
  refine ⟨?_, ?_, ?_⟩
  · have h0 : (DragTool.new ops s : DragTool V P S).PlaneWhileDragging := by
      intro hc
      simp [DragTool.new] at hc
    obtain ⟨t, ht, hinv⟩ := run_safe ops h calls _ h0
    refine ⟨t, ht, hinv, ?_⟩
    intro event hnone
    obtain ⟨t1, h1, _⟩ := leftDrag_safe ops h t event hinv
    rw [h1] at hnone
    exact absurd hnone (by simp)
  · intro t event
    have hb := beginLeftDrag_spec ops h t event
    refine ⟨by rw [hb.2.1], by rw [hb.2.1, hb.2.2]⟩
  · intro t event
    exact endLeftDrag_idle h t event

end Controller

end TrenchBroom
